import Mathlib

/-!
Verification of the `convert.py` video-conversion script.

The script is shallowly embedded: Python string operations are modelled over
`List Char` / `String`, external processes (`subprocess.run`) are modelled by
an oracle `run : List String → SpawnResult` describing what each spawned
command would do, Python exceptions are modelled by `Except PyErr`, and the
observable side effects (spawned commands, printed lines, files created) are
returned explicitly.
-/

namespace Convert

/-- ASCII lowercasing of one character, as Python `str.lower` acts on the
ASCII range (the script only feeds it command output and file names). -/
def pyCharLower (c : Char) : Char :=
  if 65 ≤ c.toNat ∧ c.toNat ≤ 90 then Char.ofNat (c.toNat + 32) else c

/-- Model of Python `s.lower()` (ASCII range). -/
def pyLower (s : String) : String :=
  ⟨s.data.map pyCharLower⟩

/-- Substring occurrence test on character lists: does `pat` occur
contiguously in `s`?  Models Python `pat in s`. -/
def containsSub (pat : List Char) : List Char → Bool
  | [] => pat.isEmpty
  | c :: t => pat.isPrefixOf (c :: t) || containsSub pat t

/-- Model of Python `pat in s` for strings. -/
def pyIn (pat s : String) : Bool :=
  containsSub pat.data s.data

/-- Structural worker for `pyReplace` (nonempty pattern).  The fuel argument
only makes the recursion structural; `pyReplaceGo_congr` shows the result
does not depend on it once it bounds the length of `s`, and `pyReplace_cons`
states the natural recurrence. -/
def pyReplaceGo (pat rep : List Char) : Nat → List Char → List Char
  | _, [] => []
  | 0, l => l
  | fuel + 1, c :: t =>
    if pat.isPrefixOf (c :: t) then
      rep ++ pyReplaceGo pat rep fuel (t.drop (pat.length - 1))
    else
      c :: pyReplaceGo pat rep fuel t

/-- Model of Python `s.replace(pat, rep)`: replace every (leftmost-first,
non-overlapping) occurrence of `pat` by `rep`.  The empty-pattern case mirrors
Python, which inserts `rep` before every character and at the end. -/
def pyReplace (pat rep s : List Char) : List Char :=
  match pat with
  | [] => rep ++ s.flatMap (fun c => [c] ++ rep)
  | _ :: _ => pyReplaceGo pat rep s.length s

/-- The fuel argument of `pyReplaceGo` is irrelevant once it bounds the
length of the input. -/
theorem pyReplaceGo_congr (pat rep : List Char) :
    ∀ fuel fuel' s, s.length ≤ fuel → s.length ≤ fuel' →
      pyReplaceGo pat rep fuel s = pyReplaceGo pat rep fuel' s := by
  intro fuel
  induction fuel with
  | zero =>
    intro fuel' s hs hs'
    have : s = [] := List.eq_nil_of_length_eq_zero (Nat.le_zero.mp hs)
    subst this
    cases fuel' <;> rfl
  | succ f ih =>
    intro fuel' s hs hs'
    cases s with
    | nil => cases fuel' <;> rfl
    | cons c t =>
      cases fuel' with
      | zero => exact absurd hs' (by simp)
      | succ f' =>
        have ht : t.length ≤ f := by
          simp only [List.length_cons] at hs
          omega
        have ht' : t.length ≤ f' := by
          simp only [List.length_cons] at hs'
          omega
        have hd : (t.drop (pat.length - 1)).length ≤ f := by
          simp only [List.length_drop]
          omega
        have hd' : (t.drop (pat.length - 1)).length ≤ f' := by
          simp only [List.length_drop]
          omega
        simp only [pyReplaceGo]
        by_cases hpre : pat.isPrefixOf (c :: t) = true
        · rw [if_pos hpre, if_pos hpre, ih f' _ hd hd']
        · rw [if_neg hpre, if_neg hpre, ih f' t ht ht']

/-- The defining recurrence of `pyReplace` on a nonempty pattern: on a match
of `pat` at the head, emit `rep` and continue after the matched block;
otherwise keep the head character and continue. -/
theorem pyReplace_cons (p : Char) (pr rep : List Char) (c : Char)
    (t : List Char) :
    pyReplace (p :: pr) rep (c :: t) =
      if (p :: pr).isPrefixOf (c :: t) then
        rep ++ pyReplace (p :: pr) rep (t.drop pr.length)
      else
        c :: pyReplace (p :: pr) rep t := by
  simp only [pyReplace, List.length_cons, pyReplaceGo]
  by_cases hpre : (p :: pr).isPrefixOf (c :: t) = true
  · simp only [hpre, if_true, List.length_cons, Nat.add_sub_cancel]
    rw [pyReplaceGo_congr (p :: pr) rep t.length (t.drop pr.length).length
      (t.drop pr.length) (by simp [List.length_drop]) le_rfl]
  · simp only [hpre, if_false]
    rfl

/-- `pyReplace` on the empty string. -/
theorem pyReplace_nil (p : Char) (pr rep : List Char) :
    pyReplace (p :: pr) rep [] = [] := rfl

/-- Model of Python `s.replace(pat, rep)` on strings. -/
def pyStrReplace (pat rep s : String) : String :=
  ⟨pyReplace pat.data rep.data s.data⟩

/-- The output-name derivation used by the batch driver
(`file_name.lower().replace(".mov", ".mp4")` in `process_all_mov_files`). -/
def derive_output (name : String) : String :=
  pyStrReplace ".mov" ".mp4" (pyLower name)

/-- Model of Python `s.lower().endswith(".mov")`, the candidate filter. -/
def isMovName (f : String) : Bool :=
  ".mov".data.isSuffixOf (pyLower f).data

/-- Model of Python `os.path.join` (POSIX form; the separator is irrelevant
to the properties proved, only injectivity in the second argument is used). -/
def pyJoin (a b : String) : String :=
  a ++ "/" ++ b

/-- GPU vendor classification, the value returned by `detect_gpu_vendor`
(`None` is represented as `Option.none`). -/
inductive Vendor where
  | nvidia
  | amd
  | apple
deriving DecidableEq, Repr

/-- The Python exceptions that the embedded fragment can raise:
`FileNotFoundError` when a spawned binary is absent, and
`subprocess.CalledProcessError` when `subprocess.run(..., check=True)` sees a
non-zero exit status.  Each carries the executable name / command text. -/
inductive PyErr where
  | fileNotFound (exe : String)
  | calledProcessError (exe : String) (returncode : Int)
deriving DecidableEq, Repr

/-- Python `str(e)` for the two modelled exceptions. -/
def errText : PyErr → String
  | .fileNotFound exe =>
    "[Errno 2] No such file or directory: " ++ exe
  | .calledProcessError exe rc =>
    "Command " ++ exe ++ " returned non-zero exit status " ++ toString rc ++ "."

/-- Result of a completed external process: exit status and captured
standard output (as decoded text). -/
structure ProcResult where
  returncode : Int
  stdout : String
deriving DecidableEq, Repr

/-- What the operating system does with one spawn attempt: either the
process runs to completion, or the executable is absent. -/
inductive SpawnResult where
  | ok (r : ProcResult)
  | noSuchFile
deriving DecidableEq, Repr

/-- The ambient environment: the OS identity reported by
`platform.system()` and an oracle giving the outcome of spawning each
command line. -/
structure Env where
  system : String
  run : List String → SpawnResult

/-- Model of `subprocess.run(cmd, check=check)`: a missing executable raises
`FileNotFoundError`; with `check = true` a non-zero exit status raises
`CalledProcessError`; otherwise the completed-process result is returned
(no status checking). -/
def subprocessRun (env : Env) (cmd : List String) (check : Bool) :
    Except PyErr ProcResult :=
  match env.run cmd with
  | .noSuchFile => .error (.fileNotFound (cmd.headD ""))
  | .ok r =>
    if check ∧ r.returncode ≠ 0 then
      .error (.calledProcessError (cmd.headD "") r.returncode)
    else
      .ok r

/-- The per-OS inventory command spawned by `detect_gpu_vendor`. -/
def linuxCmd : List String := ["lspci"]

/-- Windows video-controller inventory command. -/
def windowsCmd : List String :=
  ["wmic", "path", "win32_videocontroller", "get", "name"]

/-- macOS CPU-brand inventory command. -/
def darwinCmd : List String := ["sysctl", "machdep.cpu.brand_string"]

/-- Embedding of `detect_gpu_vendor` (convert.py lines 7-44).  Returns the
classification (or the uncaught exception) together with the list of
commands whose spawn was attempted. -/
def detect_gpu_vendor (env : Env) :
    Except PyErr (Option Vendor) × List (List String) :=
  if env.system = "Linux" then
    match subprocessRun env linuxCmd false with
    | .error e => (.error e, [linuxCmd])
    | .ok result =>
      let output := pyLower result.stdout
      if pyIn "nvidia" output then (.ok (some .nvidia), [linuxCmd])
      else if pyIn "amd" output || pyIn "radeon" output then
        (.ok (some .amd), [linuxCmd])
      else (.ok none, [linuxCmd])
  else if env.system = "Windows" then
    match subprocessRun env windowsCmd false with
    | .error e => (.error e, [windowsCmd])
    | .ok result =>
      let output := pyLower result.stdout
      if pyIn "nvidia" output then (.ok (some .nvidia), [windowsCmd])
      else if pyIn "amd" output || pyIn "radeon" output then
        (.ok (some .amd), [windowsCmd])
      else (.ok none, [windowsCmd])
  else if env.system = "Darwin" then
    match subprocessRun env darwinCmd false with
    | .error e => (.error e, [darwinCmd])
    | .ok result =>
      let output := pyLower result.stdout
      if pyIn "apple" output || pyIn "m1" output || pyIn "m2" output then
        (.ok (some .apple), [darwinCmd])
      else if pyIn "amd" output || pyIn "radeon" output then
        (.ok (some .amd), [darwinCmd])
      else if pyIn "nvidia" output then (.ok (some .nvidia), [darwinCmd])
      else (.ok none, [darwinCmd])
  else
    (.ok none, [])

/-- Encoder selection from the vendor classification
(convert.py lines 53-60). -/
def codec_for (gpu_vendor : Option Vendor) : String :=
  if gpu_vendor = some .nvidia then "h264_nvenc"
  else if gpu_vendor = some .amd then "h264_amf"
  else if gpu_vendor = some .apple then "h264_videotoolbox"
  else "libx264"

/-- The fixed transcode command template (convert.py lines 62-77). -/
def ffmpeg_command (codec input_file output_file : String) : List String :=
  ["ffmpeg", "-hwaccel", "auto", "-i", input_file, "-c:v", codec,
   "-preset", "slow", "-crf", "23", "-c:a", "copy", output_file]

/-- Whether the transcoder run produced the output file.  `success` models a
zero exit status (the output file is taken to exist afterwards);
`ffmpegFailed` models a caught `CalledProcessError` (no output file). -/
inductive ConvOutcome where
  | success
  | ffmpegFailed
deriving DecidableEq, Repr

/-- Observable side effects of a call: commands whose spawn was attempted,
and lines printed to standard output, each in order. -/
structure Trace where
  spawned : List (List String)
  printed : List String
deriving DecidableEq, Repr

/-- Embedding of `convert_h265_to_h264` (convert.py lines 47-83).  The first
component is the normal return (with the transcode outcome) or the uncaught
exception: a `CalledProcessError` from the transcoder is caught and printed,
while a `FileNotFoundError` (from the detection command or from the
transcoder binary itself) is not caught here and propagates. -/
def convert_h265_to_h264 (env : Env) (input_file output_file : String) :
    Except PyErr ConvOutcome × Trace :=
  match detect_gpu_vendor env with
  | (.error e, log) => (.error e, ⟨log, []⟩)
  | (.ok gpu_vendor, log) =>
    let codec := codec_for gpu_vendor
    let command := ffmpeg_command codec input_file output_file
    match subprocessRun env command true with
    | .ok _ =>
      (.ok .success,
       ⟨log ++ [command], ["Conversion complete: " ++ output_file]⟩)
    | .error (.calledProcessError exe rc) =>
      (.ok .ffmpegFailed,
       ⟨log ++ [command],
        ["Error occurred during conversion of " ++ input_file ++ ": "
          ++ errText (.calledProcessError exe rc)]⟩)
    | .error (.fileNotFound exe) =>
      (.error (.fileNotFound exe), ⟨log ++ [command], []⟩)

/-- State threaded through the batch loop: output files created so far in
this run, input paths handed to the converter, and the accumulated trace. -/
structure BatchState where
  created : List String
  attempted : List String
  spawned : List (List String)
  printed : List String
deriving DecidableEq, Repr

/-- The initial batch state. -/
def initState : BatchState := ⟨[], [], [], []⟩

/-- Python `enumerate(l, start=i)`. -/
def enumerateFrom (i : Nat) : List α → List (Nat × α)
  | [] => []
  | a :: t => (i, a) :: enumerateFrom (i + 1) t

/-- Python `enumerate(l, start=1)`. -/
def enumerate1 (l : List α) : List (Nat × α) :=
  enumerateFrom 1 l

/-- One full existence check for a path: it existed before the run or was
created during it (model of `os.path.exists` on output paths). -/
def pathExists (exists0 : List String) (st : BatchState) (p : String) : Bool :=
  exists0.contains p || st.created.contains p

/-- The body of the `for` loop of `process_all_mov_files`
(convert.py lines 103-118), iterated over the enumerated work list.
Each item carries its 1-based index; `total` is `len(mov_files)`.
Every exception from the converter call is caught
(`except Exception`), printed with the input filename, and iteration
continues. -/
def batchLoop (env : Env) (exists0 : List String)
    (input_dir output_dir : String) (total : Nat) :
    List (Nat × String) → BatchState → BatchState
  | [], st => st
  | (idx, file_name) :: rest, st =>
    let input_file := pyJoin input_dir file_name
    let output_file := pyJoin output_dir (derive_output file_name)
    if pathExists exists0 st output_file then
      batchLoop env exists0 input_dir output_dir total rest
        { st with printed := st.printed
            ++ ["File already exists, skipping: " ++ output_file] }
    else
      let st1 := { st with
        printed := st.printed
          ++ ["Processing file " ++ toString idx ++ "/" ++ toString total
                ++ ": " ++ input_file],
        attempted := st.attempted ++ [input_file] }
      match convert_h265_to_h264 env input_file output_file with
      | (.ok outcome, tr) =>
        batchLoop env exists0 input_dir output_dir total rest
          { st1 with
            spawned := st1.spawned ++ tr.spawned,
            printed := st1.printed ++ tr.printed,
            created := if outcome = .success then st1.created ++ [output_file]
                       else st1.created }
      | (.error e, tr) =>
        batchLoop env exists0 input_dir output_dir total rest
          { st1 with
            spawned := st1.spawned ++ tr.spawned,
            printed := st1.printed ++ tr.printed
              ++ ["Failed to convert " ++ input_file ++ ": " ++ errText e] }

/-- The candidate list (convert.py line 95) followed by the diff-mode filter
(lines 97-101): entries of the input directory listing ending in ".mov"
case-insensitively; with `diff` on, those whose derived output already
exists are removed. -/
def work_list (listing exists0 : List String) (output_dir : String)
    (diff : Bool) : List String :=
  let mov_files := listing.filter isMovName
  if diff then
    mov_files.filter
      (fun f => !(exists0.contains (pyJoin output_dir (derive_output f))))
  else
    mov_files

/-- Embedding of `process_all_mov_files` (convert.py lines 86-118).
`listing` models `os.listdir(input_dir)` and `exists0` the set of paths
existing when the call starts (directory creation, lines 92-93, has no
bearing on the modelled observables).  Note `len(mov_files)` in the progress
notice is the length of the post-filtering work list. -/
def process_all_mov_files (env : Env) (listing exists0 : List String)
    (input_dir output_dir : String) (diff : Bool) : BatchState :=
  let mov_files := work_list listing exists0 output_dir diff
  batchLoop env exists0 input_dir output_dir mov_files.length
    (enumerate1 mov_files) initState

/-! ### Properties of the output-name derivation -/

/-- The pattern replaced by the derivation. -/
def movPat : List Char := ".mov".data

/-- The replacement inserted by the derivation. -/
def mp4Rep : List Char := ".mp4".data

theorem movPat_chars : movPat = ['.', 'm', 'o', 'v'] := rfl

theorem mp4Rep_chars : mp4Rep = ['.', 'm', 'p', '4'] := rfl

theorem pyReplace_mov_cons (c : Char) (t : List Char) :
    pyReplace movPat mp4Rep (c :: t) =
      if movPat.isPrefixOf (c :: t) then
        mp4Rep ++ pyReplace movPat mp4Rep (t.drop 3)
      else
        c :: pyReplace movPat mp4Rep t :=
  pyReplace_cons '.' ['m', 'o', 'v'] mp4Rep c t

/-- A ["v"] prefix of a replaced list reflects to the original list. -/
theorem vPrefix_reflect (w : List Char)
    (h : ['v'].isPrefixOf (pyReplace movPat mp4Rep w) = true) :
    ['v'].isPrefixOf w = true := by
  cases w with
  | nil => simp [pyReplace, pyReplaceGo, movPat] at h
  | cons d x =>
    rw [pyReplace_mov_cons] at h
    by_cases hpre : movPat.isPrefixOf (d :: x) = true
    · rw [if_pos hpre] at h
      simp [mp4Rep_chars, List.isPrefixOf_cons₂] at h
    · rw [if_neg hpre] at h
      simp only [List.isPrefixOf_cons₂, List.isPrefixOf_nil_left,
        Bool.and_true] at h ⊢
      exact h

/-- An ["o","v"] prefix of a replaced list reflects to the original list. -/
theorem ovPrefix_reflect (w : List Char)
    (h : ['o', 'v'].isPrefixOf (pyReplace movPat mp4Rep w) = true) :
    ['o', 'v'].isPrefixOf w = true := by
  cases w with
  | nil => simp [pyReplace, pyReplaceGo, movPat] at h
  | cons d x =>
    rw [pyReplace_mov_cons] at h
    by_cases hpre : movPat.isPrefixOf (d :: x) = true
    · rw [if_pos hpre] at h
      simp [mp4Rep_chars, List.isPrefixOf_cons₂] at h
    · rw [if_neg hpre] at h
      simp only [List.isPrefixOf_cons₂, Bool.and_eq_true, beq_iff_eq] at h ⊢
      exact ⟨h.1, vPrefix_reflect x h.2⟩

/-- An ["m","o","v"] prefix of a replaced list reflects to the original. -/
theorem movSufPrefix_reflect (w : List Char)
    (h : ['m', 'o', 'v'].isPrefixOf (pyReplace movPat mp4Rep w) = true) :
    ['m', 'o', 'v'].isPrefixOf w = true := by
  cases w with
  | nil => simp [pyReplace, pyReplaceGo, movPat] at h
  | cons d x =>
    rw [pyReplace_mov_cons] at h
    by_cases hpre : movPat.isPrefixOf (d :: x) = true
    · rw [if_pos hpre] at h
      simp [mp4Rep_chars, List.isPrefixOf_cons₂] at h
    · rw [if_neg hpre] at h
      simp only [List.isPrefixOf_cons₂, Bool.and_eq_true, beq_iff_eq] at h ⊢
      exact ⟨h.1, ovPrefix_reflect x h.2⟩

/-- The pattern ".mov" never occurs as a prefix of a replaced list: the
replacement ".mp4" cannot recreate it. -/
theorem movPat_not_prefixOf_pyReplace (s : List Char) :
    movPat.isPrefixOf (pyReplace movPat mp4Rep s) = false := by
  cases s with
  | nil => rfl
  | cons c t =>
    rw [pyReplace_mov_cons]
    by_cases hpre : movPat.isPrefixOf (c :: t) = true
    · rw [if_pos hpre]
      simp [movPat_chars, mp4Rep_chars, List.isPrefixOf_cons₂]
    · rw [if_neg hpre]
      cases hmov : movPat.isPrefixOf (c :: pyReplace movPat mp4Rep t) with
      | false => rfl
      | true =>
        exfalso
        rw [movPat_chars] at hmov
        simp only [List.isPrefixOf_cons₂, Bool.and_eq_true, beq_iff_eq]
          at hmov
        apply hpre
        rw [movPat_chars]
        simp only [List.isPrefixOf_cons₂, Bool.and_eq_true, beq_iff_eq]
        exact ⟨hmov.1, movSufPrefix_reflect t hmov.2⟩

/-- Replacing in a list that starts with the replacement block leaves that
block alone (".mov" is not a prefix of ".mp4" at any offset). -/
theorem pyReplace_mov_rep_append (l : List Char) :
    pyReplace movPat mp4Rep (mp4Rep ++ l) =
      mp4Rep ++ pyReplace movPat mp4Rep l := by
  have h1 : movPat.isPrefixOf ('.' :: 'm' :: 'p' :: '4' :: l) = false := by
    simp [movPat_chars, List.isPrefixOf_cons₂]
  have h2 : movPat.isPrefixOf ('m' :: 'p' :: '4' :: l) = false := by
    simp [movPat_chars, List.isPrefixOf_cons₂]
  have h3 : movPat.isPrefixOf ('p' :: '4' :: l) = false := by
    simp [movPat_chars, List.isPrefixOf_cons₂]
  have h4 : movPat.isPrefixOf ('4' :: l) = false := by
    simp [movPat_chars, List.isPrefixOf_cons₂]
  show pyReplace movPat mp4Rep ('.' :: 'm' :: 'p' :: '4' :: l)
    = '.' :: 'm' :: 'p' :: '4' :: pyReplace movPat mp4Rep l
  rw [pyReplace_mov_cons, h1, if_neg (by simp)]
  rw [pyReplace_mov_cons, h2, if_neg (by simp)]
  rw [pyReplace_mov_cons, h3, if_neg (by simp)]
  rw [pyReplace_mov_cons, h4, if_neg (by simp)]

/-- Replacing ".mov" by ".mp4" is idempotent (fueled induction). -/
theorem pyReplace_mov_idem_aux :
    ∀ (n : Nat) (s : List Char), s.length ≤ n →
      pyReplace movPat mp4Rep (pyReplace movPat mp4Rep s) =
        pyReplace movPat mp4Rep s := by
  intro n
  induction n with
  | zero =>
    intro s hs
    have : s = [] := List.eq_nil_of_length_eq_zero (Nat.le_zero.mp hs)
    subst this
    rfl
  | succ n ih =>
    intro s hs
    cases s with
    | nil => rfl
    | cons c t =>
      have ht : t.length ≤ n := by
        simp only [List.length_cons] at hs
        omega
      rw [pyReplace_mov_cons]
      by_cases hpre : movPat.isPrefixOf (c :: t) = true
      · rw [if_pos hpre, pyReplace_mov_rep_append,
          ih (t.drop 3) (by simp only [List.length_drop]; omega)]
      · rw [if_neg hpre]
        have hnop : movPat.isPrefixOf (c :: pyReplace movPat mp4Rep t)
            = false := by
          have h := movPat_not_prefixOf_pyReplace (c :: t)
          rw [pyReplace_mov_cons, if_neg hpre] at h
          exact h
        rw [pyReplace_mov_cons, hnop, if_neg (by simp), ih t ht]

/-- Replacing ".mov" by ".mp4" is idempotent. -/
theorem pyReplace_mov_idem (s : List Char) :
    pyReplace movPat mp4Rep (pyReplace movPat mp4Rep s) =
      pyReplace movPat mp4Rep s :=
  pyReplace_mov_idem_aux s.length s le_rfl

/-- Every character of the replaced list comes from the replacement or from
the original list (fueled induction). -/
theorem mem_pyReplace_mov_aux :
    ∀ (n : Nat) (s : List Char), s.length ≤ n →
      ∀ c ∈ pyReplace movPat mp4Rep s, c ∈ mp4Rep ∨ c ∈ s := by
  intro n
  induction n with
  | zero =>
    intro s hs
    have : s = [] := List.eq_nil_of_length_eq_zero (Nat.le_zero.mp hs)
    subst this
    intro c hc
    exact absurd hc (by simp [pyReplace, pyReplaceGo, movPat])
  | succ n ih =>
    intro s hs
    cases s with
    | nil =>
      intro c hc
      exact absurd hc (by simp [pyReplace, pyReplaceGo, movPat])
    | cons d t =>
      have ht : t.length ≤ n := by
        simp only [List.length_cons] at hs
        omega
      intro c hc
      rw [pyReplace_mov_cons] at hc
      by_cases hpre : movPat.isPrefixOf (d :: t) = true
      · rw [if_pos hpre] at hc
        rcases List.mem_append.mp hc with hr | hx
        · exact Or.inl hr
        · rcases ih (t.drop 3) (by simp only [List.length_drop]; omega) c hx
            with hr | hy
          · exact Or.inl hr
          · exact Or.inr (List.mem_cons_of_mem d (List.drop_subset 3 t hy))
      · rw [if_neg hpre] at hc
        rcases List.mem_cons.mp hc with hd | hx
        · exact Or.inr (hd ▸ List.mem_cons_self d t)
        · rcases ih t ht c hx with hr | hy
          · exact Or.inl hr
          · exact Or.inr (List.mem_cons_of_mem d hy)

/-- `Char.ofNat` round-trips on valid code points. -/
theorem char_toNat_ofNat (n : Nat) (h : n.isValidChar) :
    (Char.ofNat n).toNat = n := by
  rw [Char.ofNat, dif_pos h]
  rfl

/-- ASCII lowercasing is idempotent. -/
theorem pyCharLower_idem (c : Char) :
    pyCharLower (pyCharLower c) = pyCharLower c := by
  by_cases h : 65 ≤ c.toNat ∧ c.toNat ≤ 90
  · have hv : Nat.isValidChar (c.toNat + 32) := Or.inl (by omega)
    have ht : (Char.ofNat (c.toNat + 32)).toNat = c.toNat + 32 :=
      char_toNat_ofNat _ hv
    have h1 : pyCharLower c = Char.ofNat (c.toNat + 32) := if_pos h
    rw [h1, pyCharLower, if_neg]
    rw [ht]
    omega
  · have h1 : pyCharLower c = c := if_neg h
    rw [h1, h1]

/-- All characters of a derived output are fixed by lowercasing. -/
theorem derive_chars_lower_fixed (s : String) :
    ∀ c ∈ pyReplace movPat mp4Rep (s.data.map pyCharLower),
      pyCharLower c = c := by
  intro c hc
  rcases mem_pyReplace_mov_aux (s.data.map pyCharLower).length _ le_rfl c hc
    with hr | hl
  · rw [mp4Rep_chars] at hr
    simp only [List.mem_cons, List.not_mem_nil, or_false] at hr
    rcases hr with rfl | rfl | rfl | rfl <;> decide
  · rcases List.mem_map.mp hl with ⟨a, _, rfl⟩
    exact pyCharLower_idem a

/-- The output-name derivation of `process_all_mov_files` is idempotent. -/
theorem derive_output_idem (s : String) :
    derive_output (derive_output s) = derive_output s := by
  have hmap : (pyReplace movPat mp4Rep (s.data.map pyCharLower)).map
        pyCharLower = pyReplace movPat mp4Rep (s.data.map pyCharLower) := by
    have := List.map_congr_left (fun a ha => derive_chars_lower_fixed s a ha)
    calc (pyReplace movPat mp4Rep (s.data.map pyCharLower)).map pyCharLower
        = (pyReplace movPat mp4Rep (s.data.map pyCharLower)).map id :=
          List.map_congr_left (fun a ha => derive_chars_lower_fixed s a ha)
      _ = _ := List.map_id _
  show (⟨pyReplace movPat mp4Rep ((pyReplace movPat mp4Rep
      (s.data.map pyCharLower)).map pyCharLower)⟩ : String)
    = ⟨pyReplace movPat mp4Rep (s.data.map pyCharLower)⟩
  rw [hmap, pyReplace_mov_idem]

/-- The derivation described by the specification text: replace the ".mov"
suffix by ".mp4" and lowercase the base name.  Stated from the words of the
spec, to be compared with the source derivation `derive_output`. -/
def spec_derive (name : String) : String :=
  let low := pyLower name
  if ".mov".data.isSuffixOf low.data then
    ⟨low.data.take (low.data.length - 4) ++ ".mp4".data⟩
  else
    low

/-! ### Batch-loop facts -/

/-- `os.path.join` is injective in the file-name argument. -/
theorem pyJoin_right_inj {a b c : String} (h : pyJoin a b = pyJoin a c) :
    b = c := by
  have hd := String.data_eq_of_eq h
  simp only [pyJoin, String.data_append] at hd
  exact String.ext (List.append_cancel_left hd)

theorem batchLoop_nil (env : Env) (exists0 : List String)
    (input_dir output_dir : String) (total : Nat) (st : BatchState) :
    batchLoop env exists0 input_dir output_dir total [] st = st := rfl

/-- Unfolding of the loop body when the output file already exists. -/
theorem batchLoop_cons_skip (env : Env) (exists0 : List String)
    (input_dir output_dir : String) (total idx : Nat) (f : String)
    (rest : List (Nat × String)) (st : BatchState)
    (h : pathExists exists0 st (pyJoin output_dir (derive_output f)) = true) :
    batchLoop env exists0 input_dir output_dir total ((idx, f) :: rest) st =
      batchLoop env exists0 input_dir output_dir total rest
        { st with printed := st.printed
            ++ ["File already exists, skipping: "
                  ++ pyJoin output_dir (derive_output f)] } := by
  simp only [batchLoop, h, if_true]

/-- Unfolding of the loop body when the file is processed and the converter
returns normally. -/
theorem batchLoop_cons_ok (env : Env) (exists0 : List String)
    (input_dir output_dir : String) (total idx : Nat) (f : String)
    (rest : List (Nat × String)) (st : BatchState) (outcome : ConvOutcome)
    (tr : Trace)
    (h : pathExists exists0 st (pyJoin output_dir (derive_output f)) = false)
    (hconv : convert_h265_to_h264 env (pyJoin input_dir f)
        (pyJoin output_dir (derive_output f)) = (.ok outcome, tr)) :
    batchLoop env exists0 input_dir output_dir total ((idx, f) :: rest) st =
      batchLoop env exists0 input_dir output_dir total rest
        { created := if outcome = .success then
              st.created ++ [pyJoin output_dir (derive_output f)]
            else st.created,
          attempted := st.attempted ++ [pyJoin input_dir f],
          spawned := st.spawned ++ tr.spawned,
          printed := st.printed
            ++ ["Processing file " ++ toString idx ++ "/" ++ toString total
                  ++ ": " ++ pyJoin input_dir f]
            ++ tr.printed } := by
  simp only [batchLoop, h, Bool.false_eq_true, if_false, hconv,
    List.append_assoc]

/-- Unfolding of the loop body when the file is processed and the converter
raises: the exception is caught, logged with the input filename, and the
loop continues with the next file. -/
theorem batchLoop_cons_error (env : Env) (exists0 : List String)
    (input_dir output_dir : String) (total idx : Nat) (f : String)
    (rest : List (Nat × String)) (st : BatchState) (e : PyErr) (tr : Trace)
    (h : pathExists exists0 st (pyJoin output_dir (derive_output f)) = false)
    (hconv : convert_h265_to_h264 env (pyJoin input_dir f)
        (pyJoin output_dir (derive_output f)) = (.error e, tr)) :
    batchLoop env exists0 input_dir output_dir total ((idx, f) :: rest) st =
      batchLoop env exists0 input_dir output_dir total rest
        { created := st.created,
          attempted := st.attempted ++ [pyJoin input_dir f],
          spawned := st.spawned ++ tr.spawned,
          printed := st.printed
            ++ ["Processing file " ++ toString idx ++ "/" ++ toString total
                  ++ ": " ++ pyJoin input_dir f]
            ++ tr.printed
            ++ ["Failed to convert " ++ pyJoin input_dir f ++ ": "
                  ++ errText e] } := by
  simp only [batchLoop, h, Bool.false_eq_true, if_false, hconv,
    List.append_assoc]

/-- One loop step always reduces to the loop on the remaining items, with
the printed log only extended: no item ever aborts the loop. -/
theorem batchLoop_cons_step (env : Env) (exists0 : List String)
    (input_dir output_dir : String) (total idx : Nat) (f : String)
    (rest : List (Nat × String)) (st : BatchState) :
    ∃ st2 l,
      batchLoop env exists0 input_dir output_dir total ((idx, f) :: rest) st
        = batchLoop env exists0 input_dir output_dir total rest st2
      ∧ st2.printed = st.printed ++ l := by
  by_cases h : pathExists exists0 st (pyJoin output_dir (derive_output f))
      = true
  · exact ⟨_, _, batchLoop_cons_skip env exists0 input_dir output_dir total
      idx f rest st h, rfl⟩
  · rw [Bool.not_eq_true] at h
    rcases hconv : convert_h265_to_h264 env (pyJoin input_dir f)
        (pyJoin output_dir (derive_output f)) with ⟨res, tr⟩
    cases res with
    | ok outcome =>
      refine ⟨_, ["Processing file " ++ toString idx ++ "/" ++ toString total
          ++ ": " ++ pyJoin input_dir f] ++ tr.printed,
        batchLoop_cons_ok env exists0 input_dir output_dir total
          idx f rest st outcome tr h hconv, ?_⟩
      simp [List.append_assoc]
    | error e =>
      refine ⟨_, ["Processing file " ++ toString idx ++ "/" ++ toString total
          ++ ": " ++ pyJoin input_dir f] ++ tr.printed
          ++ ["Failed to convert " ++ pyJoin input_dir f ++ ": "
                ++ errText e],
        batchLoop_cons_error env exists0 input_dir output_dir
          total idx f rest st e tr h hconv, ?_⟩
      simp [List.append_assoc]

/-- The printed log only grows along the loop. -/
theorem batchLoop_printed_extends (env : Env) (exists0 : List String)
    (input_dir output_dir : String) (total : Nat) :
    ∀ (items : List (Nat × String)) (st : BatchState),
      ∃ l, (batchLoop env exists0 input_dir output_dir total items st).printed
        = st.printed ++ l := by
  intro items
  induction items with
  | nil => exact fun st => ⟨[], by rw [batchLoop_nil]; simp⟩
  | cons p rest ih =>
    intro st
    obtain ⟨idx, f⟩ := p
    obtain ⟨st2, l, hstep, hpr⟩ := batchLoop_cons_step env exists0 input_dir
      output_dir total idx f rest st
    obtain ⟨l2, hl2⟩ := ih st2
    exact ⟨l ++ l2, by rw [hstep, hl2, hpr, List.append_assoc]⟩

/-- Anything printed before the loop is still in the log afterwards. -/
theorem mem_batchLoop_printed (env : Env) (exists0 : List String)
    (input_dir output_dir : String) (total : Nat)
    (items : List (Nat × String)) (st : BatchState) (x : String)
    (hx : x ∈ st.printed) :
    x ∈ (batchLoop env exists0 input_dir output_dir total items st).printed
    := by
  obtain ⟨l, hl⟩ := batchLoop_printed_extends env exists0 input_dir
    output_dir total items st
  rw [hl]
  exact List.mem_append_left l hx

/-- An input whose derived output existed before the run is never handed to
the converter: the loop only ever adds inputs whose output was absent. -/
theorem batchLoop_attempted_skip (env : Env) (exists0 : List String)
    (input_dir output_dir : String) (total : Nat) (f : String)
    (hex : exists0.contains (pyJoin output_dir (derive_output f)) = true) :
    ∀ (items : List (Nat × String)) (st : BatchState),
      pyJoin input_dir f
          ∈ (batchLoop env exists0 input_dir output_dir total items
              st).attempted →
        pyJoin input_dir f ∈ st.attempted := by
  intro items
  induction items with
  | nil => intro st h; rwa [batchLoop_nil] at h
  | cons p rest ih =>
    intro st h
    obtain ⟨idx, g⟩ := p
    by_cases hsk : pathExists exists0 st (pyJoin output_dir
        (derive_output g)) = true
    · rw [batchLoop_cons_skip env exists0 input_dir output_dir total idx g
        rest st hsk] at h
      have h2 := ih _ h
      exact h2
    · rw [Bool.not_eq_true] at hsk
      have hg : pyJoin input_dir f ∈ st.attempted ++ [pyJoin input_dir g] →
          pyJoin input_dir f ∈ st.attempted := by
        intro hm
        rcases List.mem_append.mp hm with hm | hm
        · exact hm
        · exfalso
          have hfg : f = g := pyJoin_right_inj (List.mem_singleton.mp hm)
          subst hfg
          have : pathExists exists0 st (pyJoin output_dir (derive_output f))
              = true := by
            unfold pathExists
            rw [hex, Bool.true_or]
          rw [this] at hsk
          cases hsk
      rcases hconv : convert_h265_to_h264 env (pyJoin input_dir g)
          (pyJoin output_dir (derive_output g)) with ⟨res, tr⟩
      cases res with
      | ok outcome =>
        rw [batchLoop_cons_ok env exists0 input_dir output_dir total idx g
          rest st outcome tr hsk hconv] at h
        have h2 := ih _ h
        exact hg h2
      | error e =>
        rw [batchLoop_cons_error env exists0 input_dir output_dir total idx
          g rest st e tr hsk hconv] at h
        have h2 := ih _ h
        exact hg h2

/-! ### Progress notices -/

/-- Recogniser for the progress notice lines of the batch driver. -/
def isProcessingLine (s : String) : Bool :=
  "Processing file ".data.isPrefixOf s.data

/-- The progress notice printed for item `idx` of `total`. -/
def procLine (idx total : Nat) (input_file : String) : String :=
  "Processing file " ++ toString idx ++ "/" ++ toString total ++ ": "
    ++ input_file

theorem isPrefixOf_append_self (l x : List Char) :
    l.isPrefixOf (l ++ x) = true := by
  induction l with
  | nil => simp
  | cons c t ih => simp [List.isPrefixOf_cons₂, ih]

/-- A line that does not start with the letter P of the progress notice is
not a progress notice. -/
theorem isProcessingLine_eq_false (s : String)
    (h : s.data.head? ≠ some 'P') : isProcessingLine s = false := by
  unfold isProcessingLine
  cases hd : s.data with
  | nil => rfl
  | cons c t =>
    rw [hd] at h
    have hc : ('P' == c) = false := by
      cases hPc : ('P' == c) with
      | false => rfl
      | true =>
        exact absurd (congrArg some (eq_of_beq hPc).symm) h
    rw [show "Processing file ".data = 'P' :: "rocessing file ".data
      from rfl]
    rw [List.isPrefixOf_cons₂, hc, Bool.false_and]

theorem isProcessingLine_procLine (idx total : Nat) (input_file : String) :
    isProcessingLine (procLine idx total input_file) = true := by
  unfold isProcessingLine procLine
  have hdata : ("Processing file " ++ toString idx ++ "/" ++ toString total
      ++ ": " ++ input_file).data
    = "Processing file ".data ++ ((toString idx).data ++ ("/".data
        ++ ((toString total).data ++ (": ".data ++ input_file.data)))) := by
    simp [List.append_assoc]
  rw [hdata, isPrefixOf_append_self]

/-- The single-file converter never prints a progress notice: its lines
start with "Conversion" or "Error". -/
theorem convert_printed_not_processing (env : Env)
    (input_file output_file : String) (x : String)
    (hx : x ∈ (convert_h265_to_h264 env input_file output_file).2.printed) :
    isProcessingLine x = false := by
  rcases hdet : detect_gpu_vendor env with ⟨res, log⟩
  cases res with
  | error e =>
    simp only [convert_h265_to_h264, hdet] at hx
    exact absurd hx (List.not_mem_nil x)
  | ok v =>
    simp only [convert_h265_to_h264, hdet] at hx
    cases hsub : subprocessRun env
        (ffmpeg_command (codec_for v) input_file output_file) true with
    | ok r =>
      rw [hsub] at hx
      simp only at hx
      rcases List.mem_singleton.mp hx with rfl
      apply isProcessingLine_eq_false
      rw [show ("Conversion complete: " ++ output_file).data.head?
        = some 'C' from rfl]
      decide
    | error e =>
      cases e with
      | fileNotFound exe =>
        rw [hsub] at hx
        simp only at hx
        exact absurd hx (List.not_mem_nil x)
      | calledProcessError exe rc =>
        rw [hsub] at hx
        simp only at hx
        rcases List.mem_singleton.mp hx with rfl
        apply isProcessingLine_eq_false
        rw [show ("Error occurred during conversion of " ++ input_file
          ++ ": " ++ errText (.calledProcessError exe rc)).data.head?
          = some 'E' from rfl]
        decide

/-- When no work-list item's derived output pre-exists, no two items derive
the same output, and nothing was created yet that collides, the progress
notices printed by the loop are exactly one line per item, in order, with
the item's enumeration index. -/
theorem batchLoop_processing_lines (env : Env) (exists0 : List String)
    (input_dir output_dir : String) (total : Nat) :
    ∀ (items : List (Nat × String)) (st : BatchState),
      (∀ p ∈ items,
        pyJoin output_dir (derive_output p.2) ∉ exists0) →
      (∀ p ∈ items,
        pyJoin output_dir (derive_output p.2) ∉ st.created) →
      List.Pairwise
        (fun p q => derive_output p.2 ≠ derive_output q.2) items →
      (batchLoop env exists0 input_dir output_dir total items
          st).printed.filter isProcessingLine
        = st.printed.filter isProcessingLine
          ++ items.map (fun p => procLine p.1 total (pyJoin input_dir p.2))
    := by
  intro items
  induction items with
  | nil =>
    intro st _ _ _
    simp [batchLoop_nil]
  | cons p rest ih =>
    intro st hex hcr hpw
    obtain ⟨idx, g⟩ := p
    have hexg : pyJoin output_dir (derive_output g) ∉ exists0 :=
      hex (idx, g) (List.mem_cons_self _ _)
    have hcrg : pyJoin output_dir (derive_output g) ∉ st.created :=
      hcr (idx, g) (List.mem_cons_self _ _)
    have hpe : pathExists exists0 st (pyJoin output_dir (derive_output g))
        = false := by
      unfold pathExists
      have h1 : exists0.contains (pyJoin output_dir (derive_output g))
          = false := by
        simp [List.contains, List.elem_iff, hexg]
      have h2 : st.created.contains (pyJoin output_dir (derive_output g))
          = false := by
        simp [List.contains, List.elem_iff, hcrg]
      rw [h1, h2, Bool.or_self]
    have hpwh := List.pairwise_cons.mp hpw
    rcases hconv : convert_h265_to_h264 env (pyJoin input_dir g)
        (pyJoin output_dir (derive_output g)) with ⟨res, tr⟩
    have htr : ∀ x ∈ tr.printed, isProcessingLine x = false := by
      intro x hx
      exact convert_printed_not_processing env (pyJoin input_dir g)
        (pyJoin output_dir (derive_output g)) x (by rw [hconv]; exact hx)
    have htrnil : List.filter isProcessingLine tr.printed = [] :=
      List.filter_eq_nil_iff.mpr (fun a ha => by simp [htr a ha])
    have hpl : List.filter isProcessingLine
        ["Processing file " ++ toString idx ++ "/" ++ toString total
          ++ ": " ++ pyJoin input_dir g]
        = [procLine idx total (pyJoin input_dir g)] := by
      have hp := isProcessingLine_procLine idx total (pyJoin input_dir g)
      unfold procLine at hp ⊢
      simp [List.filter, hp]
    cases res with
    | ok outcome =>
      rw [batchLoop_cons_ok env exists0 input_dir output_dir total idx g
        rest st outcome tr hpe hconv]
      have hcr2 : ∀ q ∈ rest, pyJoin output_dir (derive_output q.2) ∉
          (if outcome = ConvOutcome.success then
            st.created ++ [pyJoin output_dir (derive_output g)]
          else st.created) := by
        intro q hq
        split
        · intro hmem
          rcases List.mem_append.mp hmem with hm | hm
          · exact hcr q (List.mem_cons_of_mem _ hq) hm
          · exact (hpwh.1 q hq)
              (pyJoin_right_inj (List.mem_singleton.mp hm)).symm
        · exact fun hmem => hcr q (List.mem_cons_of_mem _ hq) hmem
      rw [ih _ (fun q hq => hex q (List.mem_cons_of_mem _ hq)) hcr2 hpwh.2]
      simp only [List.filter_append, htrnil, hpl]
      simp [List.append_assoc, procLine]
    | error e =>
      rw [batchLoop_cons_error env exists0 input_dir output_dir total idx g
        rest st e tr hpe hconv]
      rw [ih { created := st.created,
               attempted := st.attempted ++ [pyJoin input_dir g],
               spawned := st.spawned ++ tr.spawned,
               printed := st.printed
                 ++ ["Processing file " ++ toString idx ++ "/"
                       ++ toString total ++ ": " ++ pyJoin input_dir g]
                 ++ tr.printed
                 ++ ["Failed to convert " ++ pyJoin input_dir g ++ ": "
                       ++ errText e] }
        (fun q hq => hex q (List.mem_cons_of_mem _ hq))
        (fun q hq hmem => hcr q (List.mem_cons_of_mem _ hq) hmem) hpwh.2]
      have hfl : List.filter isProcessingLine
          ["Failed to convert " ++ pyJoin input_dir g ++ ": " ++ errText e]
          = [] := by
        apply List.filter_eq_nil_iff.mpr
        intro a ha
        rcases List.mem_singleton.mp ha with rfl
        have hne : isProcessingLine ("Failed to convert "
            ++ pyJoin input_dir g ++ ": " ++ errText e) = false := by
          apply isProcessingLine_eq_false
          rw [show ("Failed to convert " ++ pyJoin input_dir g ++ ": "
            ++ errText e).data.head? = some 'F' from rfl]
          decide
        simp [hne]
      simp only [List.filter_append, htrnil, hpl, hfl]
      simp [List.append_assoc, procLine]

/-! ### Detector evaluation lemmas -/

/-- The classification computed on Linux and Windows output text. -/
def classifyPCI (out : String) : Option Vendor :=
  if pyIn "nvidia" (pyLower out) then some .nvidia
  else if pyIn "amd" (pyLower out) || pyIn "radeon" (pyLower out) then
    some .amd
  else none

/-- The classification computed on macOS output text. -/
def classifyDarwin (out : String) : Option Vendor :=
  if pyIn "apple" (pyLower out) || pyIn "m1" (pyLower out)
      || pyIn "m2" (pyLower out) then some .apple
  else if pyIn "amd" (pyLower out) || pyIn "radeon" (pyLower out) then
    some .amd
  else if pyIn "nvidia" (pyLower out) then some .nvidia
  else none

theorem detect_linux_run (run : List String → SpawnResult) (r : ProcResult)
    (h : run linuxCmd = .ok r) :
    detect_gpu_vendor ⟨"Linux", run⟩
      = (.ok (classifyPCI r.stdout), [linuxCmd]) := by
  by_cases h1 : pyIn "nvidia" (pyLower r.stdout) = true <;>
  by_cases h2 : pyIn "amd" (pyLower r.stdout) = true <;>
  by_cases h3 : pyIn "radeon" (pyLower r.stdout) = true <;>
  simp [detect_gpu_vendor, subprocessRun, h, classifyPCI, h1, h2, h3]

theorem detect_windows_run (run : List String → SpawnResult)
    (r : ProcResult) (h : run windowsCmd = .ok r) :
    detect_gpu_vendor ⟨"Windows", run⟩
      = (.ok (classifyPCI r.stdout), [windowsCmd]) := by
  by_cases h1 : pyIn "nvidia" (pyLower r.stdout) = true <;>
  by_cases h2 : pyIn "amd" (pyLower r.stdout) = true <;>
  by_cases h3 : pyIn "radeon" (pyLower r.stdout) = true <;>
  simp [detect_gpu_vendor, subprocessRun, h, classifyPCI, h1, h2, h3]

theorem detect_darwin_run (run : List String → SpawnResult) (r : ProcResult)
    (h : run darwinCmd = .ok r) :
    detect_gpu_vendor ⟨"Darwin", run⟩
      = (.ok (classifyDarwin r.stdout), [darwinCmd]) := by
  by_cases h1 : pyIn "apple" (pyLower r.stdout) = true <;>
  by_cases h2 : pyIn "m1" (pyLower r.stdout) = true <;>
  by_cases h3 : pyIn "m2" (pyLower r.stdout) = true <;>
  by_cases h4 : pyIn "amd" (pyLower r.stdout) = true <;>
  by_cases h5 : pyIn "radeon" (pyLower r.stdout) = true <;>
  by_cases h6 : pyIn "nvidia" (pyLower r.stdout) = true <;>
  simp [detect_gpu_vendor, subprocessRun, h, classifyDarwin, h1, h2, h3,
    h4, h5, h6]

theorem detect_linux_fail (run : List String → SpawnResult)
    (h : run linuxCmd = .noSuchFile) :
    detect_gpu_vendor ⟨"Linux", run⟩
      = (.error (.fileNotFound "lspci"), [linuxCmd]) := by
  simp only [detect_gpu_vendor, subprocessRun, h]
  simp [linuxCmd, windowsCmd, darwinCmd]

theorem detect_windows_fail (run : List String → SpawnResult)
    (h : run windowsCmd = .noSuchFile) :
    detect_gpu_vendor ⟨"Windows", run⟩
      = (.error (.fileNotFound "wmic"), [windowsCmd]) := by
  simp only [detect_gpu_vendor, subprocessRun, h]
  simp [linuxCmd, windowsCmd, darwinCmd]

theorem detect_darwin_fail (run : List String → SpawnResult)
    (h : run darwinCmd = .noSuchFile) :
    detect_gpu_vendor ⟨"Darwin", run⟩
      = (.error (.fileNotFound "sysctl"), [darwinCmd]) := by
  simp only [detect_gpu_vendor, subprocessRun, h]
  simp [linuxCmd, windowsCmd, darwinCmd]

theorem detect_other_os (env : Env) (h1 : env.system ≠ "Linux")
    (h2 : env.system ≠ "Windows") (h3 : env.system ≠ "Darwin") :
    detect_gpu_vendor env = (.ok none, []) := by
  unfold detect_gpu_vendor
  rw [if_neg h1, if_neg h2, if_neg h3]

/-! ### Converter evaluation lemmas -/

theorem convert_eval_det_error (env : Env) (input_file output_file : String)
    (e : PyErr) (log : List (List String))
    (hdet : detect_gpu_vendor env = (.error e, log)) :
    convert_h265_to_h264 env input_file output_file
      = (.error e, ⟨log, []⟩) := by
  simp only [convert_h265_to_h264, hdet]

theorem convert_eval_run (env : Env) (input_file output_file : String)
    (v : Option Vendor) (log : List (List String)) (r : ProcResult)
    (hdet : detect_gpu_vendor env = (.ok v, log))
    (hff : env.run (ffmpeg_command (codec_for v) input_file output_file)
      = .ok r) :
    convert_h265_to_h264 env input_file output_file
      = if r.returncode = 0 then
          (.ok .success,
           ⟨log ++ [ffmpeg_command (codec_for v) input_file output_file],
            ["Conversion complete: " ++ output_file]⟩)
        else
          (.ok .ffmpegFailed,
           ⟨log ++ [ffmpeg_command (codec_for v) input_file output_file],
            ["Error occurred during conversion of " ++ input_file ++ ": "
              ++ errText (.calledProcessError "ffmpeg" r.returncode)]⟩) := by
  simp only [convert_h265_to_h264, hdet, subprocessRun, hff]
  by_cases hrc : r.returncode = 0
  · simp [hrc]
  · simp only [hrc, if_neg hrc, true_and, if_true, ne_eq,
      not_false_iff]
    simp [ffmpeg_command]

theorem convert_eval_spawn_fail (env : Env) (input_file output_file : String)
    (v : Option Vendor) (log : List (List String))
    (hdet : detect_gpu_vendor env = (.ok v, log))
    (hff : env.run (ffmpeg_command (codec_for v) input_file output_file)
      = .noSuchFile) :
    convert_h265_to_h264 env input_file output_file
      = (.error (.fileNotFound "ffmpeg"),
         ⟨log ++ [ffmpeg_command (codec_for v) input_file output_file],
          []⟩) := by
  simp only [convert_h265_to_h264, hdet, subprocessRun, hff]
  simp [ffmpeg_command]

/-! ### Claims -/

/-- C1: for every detector-command output text, the vendor classification
follows the fixed per-OS priority order: on Linux and Windows the
lowercased output is checked for "nvidia" first (so nvidia wins even when
"amd" or "radeon" is also present), then "amd"/"radeon", else none; on
macOS "apple"/"m1"/"m2" is checked first, then "amd"/"radeon", then
"nvidia", else none. -/
theorem C1_detector_priority (run : List String → SpawnResult)
    (out : String) (rc : Int)
    (hL : run linuxCmd = .ok ⟨rc, out⟩)
    (hW : run windowsCmd = .ok ⟨rc, out⟩)
    (hD : run darwinCmd = .ok ⟨rc, out⟩) :
    (detect_gpu_vendor ⟨"Linux", run⟩).1 = .ok (classifyPCI out)
  ∧ (detect_gpu_vendor ⟨"Windows", run⟩).1 = .ok (classifyPCI out)
  ∧ (detect_gpu_vendor ⟨"Darwin", run⟩).1 = .ok (classifyDarwin out)
  ∧ (pyIn "nvidia" (pyLower out) = true →
      (detect_gpu_vendor ⟨"Linux", run⟩).1 = .ok (some .nvidia)
      ∧ (detect_gpu_vendor ⟨"Windows", run⟩).1 = .ok (some .nvidia))
  ∧ ((pyIn "apple" (pyLower out) || pyIn "m1" (pyLower out)
        || pyIn "m2" (pyLower out)) = true →
      (detect_gpu_vendor ⟨"Darwin", run⟩).1 = .ok (some .apple)) := by
  have eL := detect_linux_run run ⟨rc, out⟩ hL
  have eW := detect_windows_run run ⟨rc, out⟩ hW
  have eD := detect_darwin_run run ⟨rc, out⟩ hD
  refine ⟨by rw [eL], by rw [eW], by rw [eD], ?_, ?_⟩
  · intro h
    constructor
    · rw [eL]
      simp [classifyPCI, h]
    · rw [eW]
      simp [classifyPCI, h]
  · intro h
    rw [eD]
    simp only [classifyDarwin]
    rw [if_pos (by simpa using h)]

/-- Witness for C1 at a concrete output containing both vendor names:
nvidia wins on Linux. -/
theorem C1_detector_priority_witness :
    (detect_gpu_vendor ⟨"Linux",
        fun _ => .ok ⟨0, "NVIDIA GeForce and AMD Radeon"⟩⟩).1
      = .ok (classifyPCI "NVIDIA GeForce and AMD Radeon")
  ∧ (detect_gpu_vendor ⟨"Linux",
        fun _ => .ok ⟨0, "NVIDIA GeForce and AMD Radeon"⟩⟩).1
      = .ok (some .nvidia) := by
  have h := C1_detector_priority
    (fun _ => .ok ⟨0, "NVIDIA GeForce and AMD Radeon"⟩)
    "NVIDIA GeForce and AMD Radeon" 0 rfl rfl rfl
  exact ⟨h.1, (h.2.2.2.1 (by decide)).1⟩

/-- C2: an OS identity other than Linux, Windows or macOS yields the none
classification with no command spawned; and whenever the classification is
none, the converter builds its transcode command with the software encoder
libx264. -/
theorem C2_unknown_os_software_encoder (env : Env)
    (h1 : env.system ≠ "Linux") (h2 : env.system ≠ "Windows")
    (h3 : env.system ≠ "Darwin") :
    detect_gpu_vendor env = (.ok none, [])
  ∧ ∀ (env2 : Env) (input_file output_file : String)
      (log : List (List String)),
      detect_gpu_vendor env2 = (.ok none, log) →
      (convert_h265_to_h264 env2 input_file output_file).2.spawned
        = log ++ [ffmpeg_command "libx264" input_file output_file] := by
  refine ⟨detect_other_os env h1 h2 h3, ?_⟩
  intro env2 input_file output_file log hdet
  have hc : codec_for none = "libx264" := rfl
  cases hff : env2.run (ffmpeg_command "libx264" input_file output_file) with
  | ok r =>
    have := convert_eval_run env2 input_file output_file none log r hdet
      (by rw [hc]; exact hff)
    rw [hc] at this
    rw [this]
    by_cases hrc : r.returncode = 0
    · rw [if_pos hrc]
    · rw [if_neg hrc]
  | noSuchFile =>
    have := convert_eval_spawn_fail env2 input_file output_file none log
      hdet (by rw [hc]; exact hff)
    rw [hc] at this
    rw [this]

/-- Witness for C2 on the OS identity FreeBSD. -/
theorem C2_unknown_os_software_encoder_witness :
    detect_gpu_vendor ⟨"FreeBSD", fun _ => .noSuchFile⟩ = (.ok none, [])
  ∧ (convert_h265_to_h264 ⟨"FreeBSD", fun _ => .noSuchFile⟩ "in/a.mov"
        "out/a.mp4").2.spawned
      = [] ++ [ffmpeg_command "libx264" "in/a.mov" "out/a.mp4"] := by
  have h := C2_unknown_os_software_encoder ⟨"FreeBSD", fun _ => .noSuchFile⟩
    (by decide) (by decide) (by decide)
  exact ⟨h.1, h.2 ⟨"FreeBSD", fun _ => .noSuchFile⟩ "in/a.mov" "out/a.mp4"
    [] h.1⟩

/-- C10: on every supported OS the detection command is run without status
checking, so a non-zero exit status raises nothing and classification
proceeds over the captured standard output (independently of the status);
an empty output classifies as none; only a spawn failure raises out of the
detector. -/
theorem C10_no_status_check (out : String) (rc : Int) :
    (detect_gpu_vendor ⟨"Linux", fun _ => .ok ⟨rc, out⟩⟩).1
        = .ok (classifyPCI out)
  ∧ (detect_gpu_vendor ⟨"Windows", fun _ => .ok ⟨rc, out⟩⟩).1
        = .ok (classifyPCI out)
  ∧ (detect_gpu_vendor ⟨"Darwin", fun _ => .ok ⟨rc, out⟩⟩).1
        = .ok (classifyDarwin out)
  ∧ (detect_gpu_vendor ⟨"Linux", fun _ => .ok ⟨rc, ""⟩⟩).1 = .ok none
  ∧ (detect_gpu_vendor ⟨"Windows", fun _ => .ok ⟨rc, ""⟩⟩).1 = .ok none
  ∧ (detect_gpu_vendor ⟨"Darwin", fun _ => .ok ⟨rc, ""⟩⟩).1 = .ok none
  ∧ (detect_gpu_vendor ⟨"Linux", fun _ => .noSuchFile⟩).1
        = .error (.fileNotFound "lspci")
  ∧ (detect_gpu_vendor ⟨"Windows", fun _ => .noSuchFile⟩).1
        = .error (.fileNotFound "wmic")
  ∧ (detect_gpu_vendor ⟨"Darwin", fun _ => .noSuchFile⟩).1
        = .error (.fileNotFound "sysctl") := by
  refine ⟨by rw [detect_linux_run _ ⟨rc, out⟩ rfl],
    by rw [detect_windows_run _ ⟨rc, out⟩ rfl],
    by rw [detect_darwin_run _ ⟨rc, out⟩ rfl],
    by
      rw [detect_linux_run _ ⟨rc, ""⟩ rfl]
      exact congrArg Except.ok (by decide : classifyPCI "" = none),
    by
      rw [detect_windows_run _ ⟨rc, ""⟩ rfl]
      exact congrArg Except.ok (by decide : classifyPCI "" = none),
    by
      rw [detect_darwin_run _ ⟨rc, ""⟩ rfl]
      exact congrArg Except.ok (by decide : classifyDarwin "" = none),
    by rw [detect_linux_fail _ rfl],
    by rw [detect_windows_fail _ rfl],
    by rw [detect_darwin_fail _ rfl]⟩

/-- C6: when the transcoder process exits non-zero, the converter catches
the failure, prints an error notice naming the input path and the failure
detail, and returns normally; on exit status zero it prints a completion
notice naming the output path. -/
theorem C6_converter_error_handling (env : Env)
    (input_file output_file : String) (v : Option Vendor)
    (log : List (List String)) (r : ProcResult)
    (hdet : detect_gpu_vendor env = (.ok v, log))
    (hff : env.run (ffmpeg_command (codec_for v) input_file output_file)
      = .ok r) :
    (r.returncode ≠ 0 →
      convert_h265_to_h264 env input_file output_file
        = (.ok .ffmpegFailed,
           ⟨log ++ [ffmpeg_command (codec_for v) input_file output_file],
            ["Error occurred during conversion of " ++ input_file ++ ": "
              ++ errText (.calledProcessError "ffmpeg" r.returncode)]⟩))
  ∧ (r.returncode = 0 →
      convert_h265_to_h264 env input_file output_file
        = (.ok .success,
           ⟨log ++ [ffmpeg_command (codec_for v) input_file output_file],
            ["Conversion complete: " ++ output_file]⟩)) := by
  have h := convert_eval_run env input_file output_file v log r hdet hff
  constructor
  · intro hrc
    rw [h, if_neg hrc]
  · intro hrc
    rw [h, if_pos hrc]

/-- Witness for C6: a transcoder exiting with status 1 is caught and
reported; one exiting with status 0 yields the completion notice. -/
theorem C6_converter_error_handling_witness :
    convert_h265_to_h264 ⟨"FreeBSD", fun _ => .ok ⟨1, ""⟩⟩ "in/a.mov"
        "out/a.mp4"
      = (.ok .ffmpegFailed,
         ⟨[] ++ [ffmpeg_command "libx264" "in/a.mov" "out/a.mp4"],
          ["Error occurred during conversion of in/a.mov: "
            ++ errText (.calledProcessError "ffmpeg" 1)]⟩)
  ∧ convert_h265_to_h264 ⟨"FreeBSD", fun _ => .ok ⟨0, ""⟩⟩ "in/a.mov"
        "out/a.mp4"
      = (.ok .success,
         ⟨[] ++ [ffmpeg_command "libx264" "in/a.mov" "out/a.mp4"],
          ["Conversion complete: out/a.mp4"]⟩) := by
  constructor
  · have h := C6_converter_error_handling ⟨"FreeBSD", fun _ => .ok ⟨1, ""⟩⟩
      "in/a.mov" "out/a.mp4" none [] ⟨1, ""⟩ rfl rfl
    exact h.1 (by decide)
  · have h := C6_converter_error_handling ⟨"FreeBSD", fun _ => .ok ⟨0, ""⟩⟩
      "in/a.mov" "out/a.mp4" none [] ⟨0, ""⟩ rfl rfl
    exact h.2 rfl

/-- C8 as stated is false: an absent transcoder binary and a transcoder
that runs and exits non-zero are caught by different handlers and produce
different printed error lines.  At the converter, the spawn failure is an
uncaught error while the non-zero exit returns normally; at the batch
driver, the two runs print different lines. -/
theorem C8_counterexample :
    (convert_h265_to_h264 ⟨"FreeBSD", fun _ => .noSuchFile⟩ "in/a.mov"
        "out/a.mp4").1 = .error (.fileNotFound "ffmpeg")
  ∧ (convert_h265_to_h264 ⟨"FreeBSD", fun _ => .ok ⟨1, ""⟩⟩ "in/a.mov"
        "out/a.mp4").1 = .ok .ffmpegFailed
  ∧ (process_all_mov_files ⟨"FreeBSD", fun _ => .noSuchFile⟩ ["a.mov"] []
        "in" "out" false).printed
      = ["Processing file 1/1: in/a.mov",
         "Failed to convert in/a.mov: [Errno 2] No such file or directory: ffmpeg"]
  ∧ (process_all_mov_files ⟨"FreeBSD", fun _ => .ok ⟨1, ""⟩⟩ ["a.mov"] []
        "in" "out" false).printed
      = ["Processing file 1/1: in/a.mov",
         "Error occurred during conversion of in/a.mov: Command ffmpeg returned non-zero exit status 1."]
  ∧ (process_all_mov_files ⟨"FreeBSD", fun _ => .noSuchFile⟩ ["a.mov"] []
        "in" "out" false).printed
      ≠ (process_all_mov_files ⟨"FreeBSD", fun _ => .ok ⟨1, ""⟩⟩ ["a.mov"]
          [] "in" "out" false).printed := by
  refine ⟨rfl, rfl, by decide, by decide, by decide⟩

/-- C8 amended: the two failure modes of the transcoder are handled at
different boundaries with different printed lines.  A non-zero exit is
caught inside the converter and printed as an error-occurred notice; an
absent binary raises out of the converter uncaught and is only caught by
the batch-driver guard, which prints a failed-to-convert notice. -/
theorem C8_amended_distinct_handlers (env : Env)
    (input_file output_file : String) (v : Option Vendor)
    (log : List (List String))
    (hdet : detect_gpu_vendor env = (.ok v, log)) :
    (∀ r : ProcResult,
      env.run (ffmpeg_command (codec_for v) input_file output_file) = .ok r →
      r.returncode ≠ 0 →
      convert_h265_to_h264 env input_file output_file
        = (.ok .ffmpegFailed,
           ⟨log ++ [ffmpeg_command (codec_for v) input_file output_file],
            ["Error occurred during conversion of " ++ input_file ++ ": "
              ++ errText (.calledProcessError "ffmpeg" r.returncode)]⟩))
  ∧ (env.run (ffmpeg_command (codec_for v) input_file output_file)
        = .noSuchFile →
      convert_h265_to_h264 env input_file output_file
        = (.error (.fileNotFound "ffmpeg"),
           ⟨log ++ [ffmpeg_command (codec_for v) input_file output_file],
            []⟩)) := by
  constructor
  · intro r hff hrc
    rw [convert_eval_run env input_file output_file v log r hdet hff,
      if_neg hrc]
  · intro hff
    exact convert_eval_spawn_fail env input_file output_file v log hdet hff

/-- Witness for the amended C8. -/
theorem C8_amended_distinct_handlers_witness :
    convert_h265_to_h264 ⟨"FreeBSD", fun _ => .ok ⟨2, ""⟩⟩ "in/a.mov"
        "out/a.mp4"
      = (.ok .ffmpegFailed,
         ⟨[] ++ [ffmpeg_command "libx264" "in/a.mov" "out/a.mp4"],
          ["Error occurred during conversion of in/a.mov: "
            ++ errText (.calledProcessError "ffmpeg" 2)]⟩)
  ∧ convert_h265_to_h264 ⟨"OpenBSD", fun _ => .noSuchFile⟩ "in/a.mov"
        "out/a.mp4"
      = (.error (.fileNotFound "ffmpeg"),
         ⟨[] ++ [ffmpeg_command "libx264" "in/a.mov" "out/a.mp4"], []⟩) := by
  constructor
  · have h := C8_amended_distinct_handlers ⟨"FreeBSD", fun _ => .ok ⟨2, ""⟩⟩
      "in/a.mov" "out/a.mp4" none [] rfl
    exact h.1 ⟨2, ""⟩ rfl (by decide)
  · have h := C8_amended_distinct_handlers ⟨"OpenBSD", fun _ => .noSuchFile⟩
      "in/a.mov" "out/a.mp4" none [] rfl
    exact h.2 rfl

/-- C5: any error raised by the per-file conversion step is caught at the
batch-driver boundary, logged together with the input filename, and the
loop continues with the remaining files: the step reduces to the loop on
the rest of the work list, and the failure line is in the final log. -/
theorem C5_per_file_errors_contained (env : Env) (exists0 : List String)
    (input_dir output_dir : String) (total idx : Nat) (f : String)
    (rest : List (Nat × String)) (st : BatchState) (e : PyErr) (tr : Trace)
    (hne : pathExists exists0 st (pyJoin output_dir (derive_output f))
      = false)
    (hconv : convert_h265_to_h264 env (pyJoin input_dir f)
        (pyJoin output_dir (derive_output f)) = (.error e, tr)) :
    batchLoop env exists0 input_dir output_dir total ((idx, f) :: rest) st
      = batchLoop env exists0 input_dir output_dir total rest
          { created := st.created,
            attempted := st.attempted ++ [pyJoin input_dir f],
            spawned := st.spawned ++ tr.spawned,
            printed := st.printed
              ++ ["Processing file " ++ toString idx ++ "/" ++ toString total
                    ++ ": " ++ pyJoin input_dir f]
              ++ tr.printed
              ++ ["Failed to convert " ++ pyJoin input_dir f ++ ": "
                    ++ errText e] }
  ∧ ("Failed to convert " ++ pyJoin input_dir f ++ ": " ++ errText e)
      ∈ (batchLoop env exists0 input_dir output_dir total ((idx, f) :: rest)
          st).printed := by
  have h := batchLoop_cons_error env exists0 input_dir output_dir total idx
    f rest st e tr hne hconv
  refine ⟨h, ?_⟩
  rw [h]
  apply mem_batchLoop_printed
  simp

/-- Witness for C5: a run whose transcoder binary is absent logs the
failure for the file and the loop state shows it. -/
theorem C5_per_file_errors_contained_witness :
    ("Failed to convert " ++ pyJoin "in" "a.mov" ++ ": "
        ++ errText (.fileNotFound "ffmpeg"))
      ∈ (batchLoop ⟨"FreeBSD", fun _ => .noSuchFile⟩ [] "in" "out" 1
          [(1, "a.mov")] initState).printed := by
  have h := C5_per_file_errors_contained ⟨"FreeBSD", fun _ => .noSuchFile⟩
    [] "in" "out" 1 1 "a.mov" [] initState (.fileNotFound "ffmpeg")
    ⟨[ffmpeg_command "libx264" "in/a.mov" "out/a.mp4"], []⟩
    (by decide) rfl
  exact h.2

/-- C7 as stated is false: a spawn failure of the detection command does
propagate out of the detector and the converter, but it is not fatal to
the whole run — the per-file guard of the batch driver catches it and the
batch continues to the next file, as this two-file run shows. -/
theorem C7_counterexample :
    (detect_gpu_vendor ⟨"Linux", fun _ => .noSuchFile⟩).1
        = .error (.fileNotFound "lspci")
  ∧ (convert_h265_to_h264 ⟨"Linux", fun _ => .noSuchFile⟩ "in/a.mov"
        "out/a.mp4").1 = .error (.fileNotFound "lspci")
  ∧ (process_all_mov_files ⟨"Linux", fun _ => .noSuchFile⟩
        ["a.mov", "b.mov"] [] "in" "out" false).printed
      = ["Processing file 1/2: in/a.mov",
         "Failed to convert in/a.mov: [Errno 2] No such file or directory: lspci",
         "Processing file 2/2: in/b.mov",
         "Failed to convert in/b.mov: [Errno 2] No such file or directory: lspci"]
  ∧ "Processing file 2/2: in/b.mov"
      ∈ (process_all_mov_files ⟨"Linux", fun _ => .noSuchFile⟩
          ["a.mov", "b.mov"] [] "in" "out" false).printed := by
  refine ⟨rfl, rfl, by decide, by decide⟩

/-- C7 amended: a spawn failure of the detection command is unguarded at
the detector and propagates uncaught out of the detector and the
single-file converter; it is caught by the per-file guard of the batch
driver, so the run is not aborted: each file logs a conversion failure and
the loop moves on. -/
theorem C7_amended_detection_failure_caught
    (run : List String → SpawnResult) (hfail : run linuxCmd = .noSuchFile)
    (input_file output_file : String) :
    (detect_gpu_vendor ⟨"Linux", run⟩).1 = .error (.fileNotFound "lspci")
  ∧ (convert_h265_to_h264 ⟨"Linux", run⟩ input_file output_file).1
      = .error (.fileNotFound "lspci")
  ∧ (∀ (exists0 : List String) (input_dir output_dir : String)
      (total idx : Nat) (f : String) (rest : List (Nat × String))
      (st : BatchState),
      pathExists exists0 st (pyJoin output_dir (derive_output f)) = false →
      ∃ st2,
        batchLoop ⟨"Linux", run⟩ exists0 input_dir output_dir total
            ((idx, f) :: rest) st
          = batchLoop ⟨"Linux", run⟩ exists0 input_dir output_dir total
              rest st2
        ∧ ("Failed to convert " ++ pyJoin input_dir f ++ ": "
            ++ errText (.fileNotFound "lspci"))
          ∈ (batchLoop ⟨"Linux", run⟩ exists0 input_dir output_dir total
              ((idx, f) :: rest) st).printed) := by
  have hdet := detect_linux_fail run hfail
  refine ⟨by rw [hdet], ?_, ?_⟩
  · rw [convert_eval_det_error ⟨"Linux", run⟩ input_file output_file
      (.fileNotFound "lspci") [linuxCmd] hdet]
  · intro exists0 input_dir output_dir total idx f rest st hne
    have hconv := convert_eval_det_error ⟨"Linux", run⟩ (pyJoin input_dir f)
      (pyJoin output_dir (derive_output f)) (.fileNotFound "lspci")
      [linuxCmd] hdet
    have h := batchLoop_cons_error ⟨"Linux", run⟩ exists0 input_dir
      output_dir total idx f rest st (.fileNotFound "lspci")
      ⟨[linuxCmd], []⟩ hne hconv
    refine ⟨_, h, ?_⟩
    rw [h]
    apply mem_batchLoop_printed
    simp

/-- Witness for the amended C7. -/
theorem C7_amended_detection_failure_caught_witness :
    (detect_gpu_vendor ⟨"Linux", fun _ => .noSuchFile⟩).1
        = .error (.fileNotFound "lspci")
  ∧ (convert_h265_to_h264 ⟨"Linux", fun _ => .noSuchFile⟩ "in/a.mov"
        "out/a.mp4").1 = .error (.fileNotFound "lspci") := by
  have h := C7_amended_detection_failure_caught (fun _ => .noSuchFile) rfl
    "in/a.mov" "out/a.mp4"
  exact ⟨h.1, h.2.1⟩

/-- C4: in diff mode a candidate is in the work list iff it is a ".mov"
entry of the listing whose derived output does not already exist; with
diff off, all ".mov" entries enter the work list; and in both modes a file
whose derived output pre-exists is never handed to the converter, because
of the per-file skip check. -/
theorem C4_diff_and_skip (env : Env) (listing exists0 : List String)
    (input_dir output_dir : String) :
    (∀ f, f ∈ work_list listing exists0 output_dir true ↔
        (f ∈ listing ∧ isMovName f = true
          ∧ exists0.contains (pyJoin output_dir (derive_output f)) = false))
  ∧ (∀ f, f ∈ work_list listing exists0 output_dir false ↔
        (f ∈ listing ∧ isMovName f = true))
  ∧ (∀ (diff : Bool) (f : String),
        exists0.contains (pyJoin output_dir (derive_output f)) = true →
        pyJoin input_dir f ∉ (process_all_mov_files env listing exists0
            input_dir output_dir diff).attempted) := by
  refine ⟨?_, ?_, ?_⟩
  · intro f
    simp [work_list, List.mem_filter, and_assoc]
    exact fun _ => and_comm
  · intro f
    simp [work_list, List.mem_filter]
  · intro diff f hex hmem
    have h := batchLoop_attempted_skip env exists0 input_dir output_dir
      (work_list listing exists0 output_dir diff).length f hex
      (enumerate1 (work_list listing exists0 output_dir diff)) initState
      hmem
    exact absurd h (List.not_mem_nil _)

/-- Witness for C4: with out/a.mp4 pre-existing, A.mov is excluded from
the diff work list, kept in the plain work list, and in neither mode is it
handed to the converter. -/
theorem C4_diff_and_skip_witness :
    ("A.mov" ∉ work_list ["A.mov", "b.mov"] [pyJoin "out" "a.mp4"] "out"
        true)
  ∧ ("A.mov" ∈ work_list ["A.mov", "b.mov"] [pyJoin "out" "a.mp4"] "out"
        false)
  ∧ pyJoin "in" "A.mov"
      ∉ (process_all_mov_files ⟨"Linux", fun _ => .ok ⟨0, ""⟩⟩
          ["A.mov", "b.mov"] [pyJoin "out" "a.mp4"] "in" "out"
          false).attempted
  ∧ pyJoin "in" "A.mov"
      ∉ (process_all_mov_files ⟨"Linux", fun _ => .ok ⟨0, ""⟩⟩
          ["A.mov", "b.mov"] [pyJoin "out" "a.mp4"] "in" "out"
          true).attempted := by
  have h := C4_diff_and_skip ⟨"Linux", fun _ => .ok ⟨0, ""⟩⟩
    ["A.mov", "b.mov"] [pyJoin "out" "a.mp4"] "in" "out"
  refine ⟨?_, ?_, h.2.2 false "A.mov" (by decide),
    h.2.2 true "A.mov" (by decide)⟩
  · intro hmem
    exact absurd ((h.1 "A.mov").mp hmem).2.2 (by decide)
  · exact (h.2.1 "A.mov").mpr ⟨by decide, by decide⟩

theorem mem_enumerateFrom {α : Type} (p : Nat × α) :
    ∀ (i : Nat) (l : List α), p ∈ enumerateFrom i l → p.2 ∈ l := by
  intro i l
  induction l generalizing i with
  | nil => intro h; exact absurd h (List.not_mem_nil p)
  | cons a t ih =>
    intro h
    rcases List.mem_cons.mp h with h | h
    · rw [h]
      exact List.mem_cons_self a t
    · exact List.mem_cons_of_mem a (ih (i + 1) h)

theorem pairwise_enumerateFrom {α : Type} (R : α → α → Prop) :
    ∀ (i : Nat) (l : List α), List.Pairwise R l →
      List.Pairwise (fun p q => R p.2 q.2) (enumerateFrom i l) := by
  intro i l
  induction l generalizing i with
  | nil => intro _; exact List.Pairwise.nil
  | cons a t ih =>
    intro h
    rcases List.pairwise_cons.mp h with ⟨ha, ht⟩
    exact List.pairwise_cons.mpr
      ⟨fun q hq => ha q.2 (mem_enumerateFrom q (i + 1) t hq),
       ih (i + 1) ht⟩

/-- C9: the candidate list contains exactly the listing entries whose
names end in ".mov" case-insensitively; each processed file prints one
progress notice carrying its 1-based work-list position and the work-list
length; in the scenario with entries A.mov, b.mov, notes.txt and an empty
output directory, exactly the two expected notices are printed and
notes.txt is ignored. -/
theorem C9_candidates_and_progress (env : Env)
    (listing exists0 : List String) (input_dir output_dir : String)
    (diff : Bool) :
    (∀ f, f ∈ listing.filter isMovName ↔
        (f ∈ listing ∧ isMovName f = true))
  ∧ ((∀ f ∈ work_list listing exists0 output_dir diff,
        pyJoin output_dir (derive_output f) ∉ exists0) →
      List.Pairwise (fun a b => derive_output a ≠ derive_output b)
        (work_list listing exists0 output_dir diff) →
      (process_all_mov_files env listing exists0 input_dir output_dir
          diff).printed.filter isProcessingLine
        = (enumerate1 (work_list listing exists0 output_dir diff)).map
            (fun p => procLine p.1
              (work_list listing exists0 output_dir diff).length
              (pyJoin input_dir p.2)))
  ∧ work_list ["A.mov", "b.mov", "notes.txt"] [] "out" false
      = ["A.mov", "b.mov"]
  ∧ (process_all_mov_files ⟨"Linux", fun _ => .ok ⟨0, ""⟩⟩
        ["A.mov", "b.mov", "notes.txt"] [] "in" "out"
        false).printed.filter isProcessingLine
      = ["Processing file 1/2: in/A.mov", "Processing file 2/2: in/b.mov"]
  ∧ (process_all_mov_files ⟨"Linux", fun _ => .ok ⟨0, ""⟩⟩
        ["A.mov", "b.mov", "notes.txt"] [] "in" "out" false).attempted
      = [pyJoin "in" "A.mov", pyJoin "in" "b.mov"] := by
  refine ⟨?_, ?_, by decide, by decide, by decide⟩
  · intro f
    exact List.mem_filter
  · intro hex hpw
    unfold process_all_mov_files
    rw [batchLoop_processing_lines env exists0 input_dir output_dir
      (work_list listing exists0 output_dir diff).length
      (enumerate1 (work_list listing exists0 output_dir diff)) initState
      (fun p hp => hex p.2 (mem_enumerateFrom p 1 _ hp))
      (fun p _ => List.not_mem_nil _)
      (pairwise_enumerateFrom _ 1 _ hpw)]
    rfl

/-- Witness for C9: the general progress-notice characterisation applied
to the scenario listing. -/
theorem C9_candidates_and_progress_witness :
    (process_all_mov_files ⟨"Linux", fun _ => .ok ⟨0, ""⟩⟩
        ["A.mov", "b.mov", "notes.txt"] [] "in" "out"
        false).printed.filter isProcessingLine
      = (enumerate1 (work_list ["A.mov", "b.mov", "notes.txt"] [] "out"
          false)).map
          (fun p => procLine p.1
            (work_list ["A.mov", "b.mov", "notes.txt"] [] "out"
              false).length
            (pyJoin "in" p.2)) := by
  have h := C9_candidates_and_progress ⟨"Linux", fun _ => .ok ⟨0, ""⟩⟩
    ["A.mov", "b.mov", "notes.txt"] [] "in" "out" false
  exact h.2.1 (by decide) (by decide)

/-- C3 as stated is false: the source derivation replaces every occurrence
of ".mov" in the lowercased name, not only the suffix, so the name
A.movie.MOV is mapped to a.mp4ie.mp4 while a suffix-only replacement (the
claimed derivation, `spec_derive`) gives a.movie.mp4. -/
theorem C3_counterexample :
    derive_output "A.movie.MOV" = "a.mp4ie.mp4"
  ∧ spec_derive "A.movie.MOV" = "a.movie.mp4"
  ∧ derive_output "A.movie.MOV" ≠ spec_derive "A.movie.MOV" := by
  refine ⟨by decide, by decide, by decide⟩

/-- C3 amended: the derived output name is the lowercased input name with
every occurrence of ".mov" replaced by ".mp4" (for the usual names where
".mov" occurs only as the suffix this is the suffix replacement, e.g.
Clip.MOV gives clip.mp4); the derivation is a pure function and applying
it twice yields the same result as applying it once. -/
theorem C3_derivation_amended (s : String) :
    derive_output s = pyStrReplace ".mov" ".mp4" (pyLower s)
  ∧ derive_output (derive_output s) = derive_output s
  ∧ derive_output "Clip.MOV" = "clip.mp4" := by
  exact ⟨rfl, derive_output_idem s, by decide⟩

end Convert
